import Mathlib

/-!
Verification of the per-key sliding-window event throttler
(`src/event_throttler/throttler.py`).

The Python class `EventThrottler` holds a mutable window (`self._window`),
a dict mapping keys to the timestamp of the last processed event
(`self._last_processed_timestamps`), and a reentrant lock.  We embed the
state as a structure and every method as a pure function returning the
result together with the updated state.  Python integers are unbounded, so
timestamps and the window are modelled by `Int`.  The dict is modelled by
an association list with update-in-place insert (matching dict assignment
semantics: overwrite if present, append if absent) and `List.length` for
`len` (entries inserted via `assocInsert` stay distinct).  Logging calls
are side effects with no influence on state or results and are omitted.
-/

/-- Lookup in the association list modelling the Python dict:
`self._last_processed_timestamps[key]` / `key in self._last_processed_timestamps`. -/
def assocLookup : List (String × Int) → String → Option Int
  | [], _ => none
  | (k', v') :: rest, k => if k' = k then some v' else assocLookup rest k

/-- Dict assignment `self._last_processed_timestamps[key] = timestamp`:
overwrite the entry for `key` if present, otherwise append a new entry. -/
def assocInsert : List (String × Int) → String → Int → List (String × Int)
  | [], k, v => [(k, v)]
  | (k', v') :: rest, k, v =>
      if k' = k then (k, v) :: rest else (k', v') :: assocInsert rest k v

/-- State of the Python `EventThrottler` instance: `self._window` and
`self._last_processed_timestamps`.  The lock only serializes access and
carries no data; it has no counterpart in the sequential embedding. -/
structure EventThrottler where
  window : Int
  last_processed_timestamps : List (String × Int)
  deriving DecidableEq, Repr

/-- `DEFAULT_WINDOW = 10` from `config.py`. -/
def DEFAULT_WINDOW : Int := 10

/-- `EventThrottler.__init__`: fresh engine with the given window and an
empty timestamp map. -/
def initThrottler (window : Int) : EventThrottler :=
  { window := window, last_processed_timestamps := [] }

/-- `EventThrottler.should_process(timestamp, event_id, key)`: returns the
boolean decision and the successor state.  Mirrors the Python body line by
line: missing key → record and accept; otherwise accept and overwrite when
`timestamp - last_timestamp >= self._window`, else throttle leaving the
map untouched.  `event_id` is only logged in the source and is ignored. -/
def should_process (e : EventThrottler) (timestamp : Int) (event_id : String)
    (key : String) : Bool × EventThrottler :=
  match assocLookup e.last_processed_timestamps key with
  | none =>
      (true, { e with last_processed_timestamps :=
                 assocInsert e.last_processed_timestamps key timestamp })
  | some last_timestamp =>
      if timestamp - last_timestamp ≥ e.window then
        (true, { e with last_processed_timestamps :=
                   assocInsert e.last_processed_timestamps key timestamp })
      else
        (false, e)

/-- `EventThrottler.update_window(new_window)`: replaces `self._window`. -/
def update_window (e : EventThrottler) (new_window : Int) : EventThrottler :=
  { e with window := new_window }

/-- `EventThrottler.get_window()`: returns `self._window`. -/
def get_window (e : EventThrottler) : Int :=
  e.window

/-- `EventThrottler.clear()`: `self._last_processed_timestamps.clear()`. -/
def clearThrottler (e : EventThrottler) : EventThrottler :=
  { e with last_processed_timestamps := [] }

/-- `EventThrottler.get_key_count()`: `len(self._last_processed_timestamps)`. -/
def get_key_count (e : EventThrottler) : Int :=
  (e.last_processed_timestamps.length : Int)

/-- Run a list of `(timestamp, event_id, key)` calls through
`should_process`, threading the state and collecting the booleans. -/
def runDecisions (e : EventThrottler) : List (Int × String × String) → List Bool
  | [] => []
  | (t, id, k) :: rest =>
      let r := should_process e t id k
      r.1 :: runDecisions r.2 rest

/-- Modelled from the spec (§4.1, steps 1–4): the four-step decision
algorithm stated in the specification, written from its words, to be
compared with `should_process` as embedded from the source. -/
def decideSpecAlg (e : EventThrottler) (timestamp : Int) (event_id : String)
    (key : String) : Bool × EventThrottler :=
  match assocLookup e.last_processed_timestamps key with
  | none =>
      -- step 1: no entry → record last_accepted[key] = timestamp, accept
      (true, { e with last_processed_timestamps :=
                 assocInsert e.last_processed_timestamps key timestamp })
  | some last =>
      -- step 2: delta = timestamp − last, plain integer subtraction
      let delta := timestamp - last
      if delta ≥ e.window then
        -- step 3: delta ≥ window → overwrite, accept
        (true, { e with last_processed_timestamps :=
                   assocInsert e.last_processed_timestamps key timestamp })
      else
        -- step 4: delta < window (including negative) → untouched, throttled
        (false, e)

section AssocLemmas

lemma assocLookup_insert_self (l : List (String × Int)) (k : String) (v : Int) :
    assocLookup (assocInsert l k v) k = some v := by
  induction l with
  | nil => simp [assocInsert, assocLookup]
  | cons hd tl ih =>
      obtain ⟨k', v'⟩ := hd
      by_cases h : k' = k
      · simp [assocInsert, assocLookup, h]
      · simp [assocInsert, assocLookup, h, ih]

lemma assocLookup_insert_ne (l : List (String × Int)) (k k' : String) (v : Int)
    (h : k' ≠ k) : assocLookup (assocInsert l k v) k' = assocLookup l k' := by
  have hk : k ≠ k' := fun hh => h hh.symm
  induction l with
  | nil => simp [assocInsert, assocLookup, hk]
  | cons hd tl ih =>
      obtain ⟨k₀, v₀⟩ := hd
      by_cases h₀ : k₀ = k
      · subst h₀
        simp [assocInsert, assocLookup, hk]
      · simp [assocInsert, assocLookup, h₀, ih]

lemma length_assocInsert_absent (l : List (String × Int)) (k : String) (v : Int)
    (h : assocLookup l k = none) :
    (assocInsert l k v).length = l.length + 1 := by
  induction l with
  | nil => simp [assocInsert]
  | cons hd tl ih =>
      obtain ⟨k₀, v₀⟩ := hd
      by_cases h₀ : k₀ = k
      · simp [assocLookup, h₀] at h
      · simp [assocLookup, h₀] at h
        simp [assocInsert, h₀, ih h]

lemma length_assocInsert_present (l : List (String × Int)) (k : String)
    (v w : Int) (h : assocLookup l k = some w) :
    (assocInsert l k v).length = l.length := by
  induction l with
  | nil => simp [assocLookup] at h
  | cons hd tl ih =>
      obtain ⟨k₀, v₀⟩ := hd
      by_cases h₀ : k₀ = k
      · simp [assocInsert, h₀]
      · simp [assocLookup, h₀] at h
        simp [assocInsert, h₀, ih h]

lemma length_assocInsert_ge (l : List (String × Int)) (k : String) (v : Int) :
    l.length ≤ (assocInsert l k v).length := by
  cases h : assocLookup l k with
  | none => rw [length_assocInsert_absent l k v h]; omega
  | some w => rw [length_assocInsert_present l k v w h]

end AssocLemmas

section Helpers

lemma should_process_fst_congr (e e' : EventThrottler) (t : Int)
    (id id' key : String) (hw : e'.window = e.window)
    (hl : assocLookup e'.last_processed_timestamps key
            = assocLookup e.last_processed_timestamps key) :
    (should_process e' t id' key).1 = (should_process e t id key).1 := by
  unfold should_process
  rw [hl, hw]
  cases assocLookup e.last_processed_timestamps key with
  | none => rfl
  | some last => by_cases hc : t - last ≥ e.window <;> simp [hc]

end Helpers

/-- C1: `should_process` follows exactly the four-step algorithm of §4.1:
missing key → record and accept; otherwise `delta = timestamp − last` by
plain integer subtraction, accept and overwrite when `delta ≥ window`
(even for a numerically smaller timestamp), throttle leaving the map
untouched when `delta < window` (including negative delta). -/
theorem should_process_follows_spec_algorithm (e : EventThrottler)
    (timestamp : Int) (event_id key : String) :
    should_process e timestamp event_id key
      = decideSpecAlg e timestamp event_id key := rfl

/-- C2: for a key stored with last-accepted timestamp `last`,
`should_process` throttles every `t` with `last ≤ t < last + window` and
accepts every `t ≥ last + window` (the boundary `t - last = window` is
accepted); and on a fresh engine with window 10 the boundary scenario
`10,20,29,31` for `userA` yields `true, true, false, true`. -/
theorem window_exclusion (e : EventThrottler) (key : String) (last : Int)
    (h : assocLookup e.last_processed_timestamps key = some last)
    (t : Int) (id : String) :
    (last ≤ t → t < last + e.window → (should_process e t id key).1 = false) ∧
    (last + e.window ≤ t → (should_process e t id key).1 = true) ∧
    runDecisions (initThrottler 10)
        [(10, "e1", "userA"), (20, "e2", "userA"),
         (29, "e3", "userA"), (31, "e4", "userA")]
      = [true, true, false, true] := by
  refine ⟨?_, ?_, rfl⟩
  · intro _ h2
    have hc : ¬ (t - last ≥ e.window) := by omega
    simp [should_process, h, hc]
  · intro h1
    have hc : t - last ≥ e.window := by omega
    simp [should_process, h, hc]

/-- Witness for C2 at a concrete state: key `userA` stored at 10, window
10, timestamp 15 is throttled. -/
theorem window_exclusion_witness :
    assocLookup ({ window := 10, last_processed_timestamps := [("userA", 10)] }
        : EventThrottler).last_processed_timestamps "userA" = some 10 ∧
    (10 : Int) ≤ 15 ∧ (15 : Int) < 10 + 10 ∧
    (should_process { window := 10, last_processed_timestamps := [("userA", 10)] }
        15 "e2" "userA").1 = false := by
  refine ⟨rfl, by decide, by decide, ?_⟩
  exact (window_exclusion
    { window := 10, last_processed_timestamps := [("userA", 10)] }
    "userA" 10 rfl 15 "e2").1 (by decide) (by decide)

/-- C3: a `should_process` call changes at most the entry of its own key
and never the window; a throttled call leaves the whole state unchanged;
lookups for every other key are unchanged, and so is the decision any
later call for another key would get. -/
theorem decide_frame (e : EventThrottler) (t : Int) (id key : String) :
    ((should_process e t id key).2.window = e.window) ∧
    ((should_process e t id key).1 = false → (should_process e t id key).2 = e) ∧
    (∀ key', key' ≠ key →
      assocLookup (should_process e t id key).2.last_processed_timestamps key'
        = assocLookup e.last_processed_timestamps key') ∧
    (∀ (t' : Int) (id' key' : String), key' ≠ key →
      (should_process (should_process e t id key).2 t' id' key').1
        = (should_process e t' id' key').1) := by
  have hw : (should_process e t id key).2.window = e.window := by
    unfold should_process
    cases h : assocLookup e.last_processed_timestamps key with
    | none => rfl
    | some last => by_cases hc : t - last ≥ e.window <;> simp [hc]
  have hinert : (should_process e t id key).1 = false →
      (should_process e t id key).2 = e := by
    unfold should_process
    cases h : assocLookup e.last_processed_timestamps key with
    | none => simp
    | some last => by_cases hc : t - last ≥ e.window <;> simp [hc]
  have hl : ∀ key', key' ≠ key →
      assocLookup (should_process e t id key).2.last_processed_timestamps key'
        = assocLookup e.last_processed_timestamps key' := by
    intro key' hne
    unfold should_process
    cases h : assocLookup e.last_processed_timestamps key with
    | none => simp [assocLookup_insert_ne _ _ _ _ hne]
    | some last =>
        by_cases hc : t - last ≥ e.window <;>
          simp [hc, assocLookup_insert_ne _ _ _ _ hne]
  exact ⟨hw, hinert, hl, fun t' id' key' hne =>
    should_process_fst_congr e (should_process e t id key).2 t' id' id' key'
      hw (hl key' hne)⟩

/-- Witness for C3 at a concrete state: a call for key `a` leaves the
lookup for key `b` unchanged. -/
theorem decide_frame_witness :
    ("b" : String) ≠ "a" ∧
    assocLookup
        ((should_process (initThrottler 10) 5 "e1" "a").2).last_processed_timestamps
        "b"
      = assocLookup (initThrottler 10).last_processed_timestamps "b" :=
  ⟨by decide, (decide_frame (initThrottler 10) 5 "e1" "a").2.2.1 "b" (by decide)⟩

/-- C4: `clear` empties the key map and nothing else: afterwards the key
count is 0, the window is unchanged, and the next call for any key with
any timestamp is accepted. -/
theorem clear_resets (e : EventThrottler) :
    get_key_count (clearThrottler e) = 0 ∧
    get_window (clearThrottler e) = get_window e ∧
    ∀ (t : Int) (id key : String),
      (should_process (clearThrottler e) t id key).1 = true :=
  ⟨rfl, rfl, fun _ _ _ => rfl⟩

/-- C5: the key count is 0 on a fresh engine, grows by exactly one when
`should_process` sees a new key, stays put for an already-seen key, is
untouched by `update_window`, and never decreases under `should_process`. -/
theorem key_count_behaviour (e : EventThrottler) (w t : Int) (id key : String) :
    get_key_count (initThrottler w) = 0 ∧
    (assocLookup e.last_processed_timestamps key = none →
      get_key_count (should_process e t id key).2 = get_key_count e + 1) ∧
    (∀ last, assocLookup e.last_processed_timestamps key = some last →
      get_key_count (should_process e t id key).2 = get_key_count e) ∧
    get_key_count (update_window e w) = get_key_count e ∧
    get_key_count e ≤ get_key_count (should_process e t id key).2 := by
  refine ⟨rfl, ?_, ?_, rfl, ?_⟩
  · intro h
    simp [should_process, h, get_key_count, length_assocInsert_absent _ _ _ h]
  · intro last h
    by_cases hc : t - last ≥ e.window
    · simp [should_process, h, hc, get_key_count,
        length_assocInsert_present _ _ _ _ h]
    · simp [should_process, h, hc]
  · cases h : assocLookup e.last_processed_timestamps key with
    | none =>
        simp [should_process, h, get_key_count,
          length_assocInsert_absent _ _ _ h]
    | some last =>
        by_cases hc : t - last ≥ e.window
        · simp [should_process, h, hc, get_key_count,
            length_assocInsert_present _ _ _ _ h]
        · simp [should_process, h, hc]

/-- Witness for C5 at a concrete state: the first call for key `a` on a
fresh engine raises the key count from 0 to 1. -/
theorem key_count_behaviour_witness :
    assocLookup (initThrottler 10).last_processed_timestamps "a" = none ∧
    get_key_count (should_process (initThrottler 10) 7 "e1" "a").2
      = get_key_count (initThrottler 10) + 1 :=
  ⟨rfl, (key_count_behaviour (initThrottler 10) 10 7 "e1" "a").2.1 rfl⟩

/-- C6: `update_window` replaces the window and nothing else (the map is
unchanged), `get_window` reads the current value, and immediately after
`update_window e w` a `get_window` call returns exactly `w`, for every
integer `w` including zero and negative values. -/
theorem update_window_get_window (e : EventThrottler) (w : Int) :
    (update_window e w).window = w ∧
    (update_window e w).last_processed_timestamps
      = e.last_processed_timestamps ∧
    get_window (update_window e w) = w ∧
    get_window e = e.window :=
  ⟨rfl, rfl, rfl, rfl⟩

/-- C7: the `event_id` argument never affects the result or the state:
two calls differing only in `event_id` return the same boolean and leave
the engine in the same state. -/
theorem event_id_irrelevant (e : EventThrottler) (t : Int)
    (id₁ id₂ key : String) :
    should_process e t id₁ key = should_process e t id₂ key := rfl

/-- C8: `should_process` performs no input validation: for every integer
timestamp (including zero and negative) and every key (including the
empty string) the result is determined purely by the arithmetic rule —
accept on first sight, otherwise accept iff `window ≤ timestamp - last`. -/
theorem no_input_validation (e : EventThrottler) (t : Int) (id key : String) :
    (should_process e t id key).1 =
      (match assocLookup e.last_processed_timestamps key with
       | none => true
       | some last => decide (e.window ≤ t - last)) := by
  unfold should_process
  cases assocLookup e.last_processed_timestamps key with
  | none => rfl
  | some last => by_cases hc : e.window ≤ t - last <;> simp [hc, ge_iff_le]

/-- C10: a zero or negative window does not make every event accepted:
with window −5 and key `userA` stored at 100, timestamp 90 gives
delta −10 < −5, so the call is throttled and the state is unchanged. -/
theorem negative_window_can_throttle :
    ({ window := -5, last_processed_timestamps := [("userA", 100)] }
        : EventThrottler).window ≤ 0 ∧
    should_process
        { window := -5, last_processed_timestamps := [("userA", 100)] }
        90 "e1" "userA"
      = (false,
         { window := -5, last_processed_timestamps := [("userA", 100)] }) :=
  ⟨by decide, rfl⟩
